import Mathlib

/-!
Shallow embedding of `src/src/iter.rs` (crate `some-trait`): the
`FallibleIterator` trait, its derived `seek_next`, and the three fuse
adapters `FuseIterAlways`, `FuseIterVariant`, `FuseIterClosure`.

The trait's executable logic (`seek_next` and every adapter's `next`)
pattern matches the result of `some_next` as `Option<Result<T, E>>`
(arms `Some(Ok(t))`, `Some(Err(e))`, `None`), so the per-step outcome
type used by all the bodies is embedded as `Option (Except ε α)`:
  `some (.ok v)`    = a produced value (the spec's `Produced v`),
  `some (.error e)` = a failure (the spec's `Failed e`),
  `none`            = no value on this poll (the spec's `Empty`).
(The trait HEADER declares `some_next` as returning
`Result<Option<T>, E>` instead; that declared-versus-matched shape
mismatch is itself one of the verified claims and is embedded
symbolically at the end of the definitions, via `RustTy`/`RustPat`.)

A stepper driven by a finite scripted sequence of outcomes is embedded
as the list of outcomes it has yet to return; its `some_next` pops the
head of that list, so one `step()` invocation consumes exactly one
scripted entry.  An adapter `next` call over such a stepper either
returns within the script — embedded as `some (emitted?, remaining
script)` — or polls past the end of the finite script, embedded as
`none` (the Rust loop would keep polling; behavior past script
exhaustion is stepper-dependent and outside the scripted model).
-/

namespace SomeTrait

/-- Per-step outcome in the shape consumed by the bodies' match arms
(`Some(Ok(t))` / `Some(Err(e))` / `None` in `iter.rs`). -/
abbrev StepOut (α ε : Type) := Option (Except ε α)

/-- The scripted stepper's `some_next`: return the next scripted outcome
and the rest of the script; `none` here means the finite script is
exhausted (the poll does not return within the script). -/
def some_next {α ε : Type} : List (StepOut α ε) → Option (StepOut α ε × List (StepOut α ε))
  | [] => none
  | o :: rest => some (o, rest)

/-- `FallibleIterator::seek_next` (iter.rs lines 24-32): loop on
`some_next`; `Some(Ok(t))` returns `Some(t)`, `Some(Err(_))` returns
`None` (error discarded), `None` keeps looping.  The list match inlines
the scripted `some_next` (pop the head).  Result `some (r, s')` is the
loop returning `r` with script `s'` left; `none` is the loop running
past the finite script. -/
def seek_next {α ε : Type} : List (StepOut α ε) → Option (Option α × List (StepOut α ε))
  | [] => none
  | some (.ok t) :: rest => some (some t, rest)
  | some (.error _) :: rest => some (none, rest)
  | none :: rest => seek_next rest

/-- `FuseIterAlways::next` (iter.rs lines 85-87): exactly
`self.inner.seek_next()`. -/
def fuseIterAlwaysNext {α ε : Type} (s : List (StepOut α ε)) :
    Option (Option α × List (StepOut α ε)) :=
  seek_next s

/-- `FuseIterVariant::next` (iter.rs lines 108-116): loop on `some_next`;
`Some(Ok(t))` returns `Some(t)`; `Some(Err(e))` with `e == self.variant`
returns `None`; `Some(Err(_))` and `None` keep looping. -/
def fuseIterVariantNext {α ε : Type} [DecidableEq ε] (variant : ε) :
    List (StepOut α ε) → Option (Option α × List (StepOut α ε))
  | [] => none
  | some (.ok t) :: rest => some (some t, rest)
  | some (.error e) :: rest =>
      if e = variant then some (none, rest) else fuseIterVariantNext variant rest
  | none :: rest => fuseIterVariantNext variant rest

/-- `FuseIterClosure::next` (iter.rs lines 134-146): loop on `some_next`;
`Some(Ok(t))` returns `Some(t)`; `Some(Err(e))` returns `None` when
`!(self.cond)(e)` and keeps looping otherwise; `None` keeps looping. -/
def fuseIterClosureNext {α ε : Type} (cond : ε → Bool) :
    List (StepOut α ε) → Option (Option α × List (StepOut α ε))
  | [] => none
  | some (.ok t) :: rest => some (some t, rest)
  | some (.error e) :: rest =>
      if cond e then fuseIterClosureNext cond rest else some (none, rest)
  | none :: rest => fuseIterClosureNext cond rest

/-- Repeated calls to an adapter's `next`, collecting the emitted values,
until `next` signals end-of-sequence (`some (none, _)`), runs past the
finite script (`none`), or the fuel runs out.  Every returning `next`
consumes at least one scripted entry, so fuel `s.length` always reaches
the end (`iterateNext_fuel_stable` below). -/
def iterateNext {α ε : Type}
    (next : List (StepOut α ε) → Option (Option α × List (StepOut α ε))) :
    Nat → List (StepOut α ε) → List α
  | 0, _ => []
  | fuel + 1, s =>
    match next s with
    | some (some v, s') => v :: iterateNext next fuel s'
    | _ => []

/-- Values emitted by repeated `FuseIterAlways::next` calls over the
script `s`. -/
def runAlways {α ε : Type} (s : List (StepOut α ε)) : List α :=
  iterateNext fuseIterAlwaysNext s.length s

/-- Values emitted by repeated `FuseIterVariant::next` calls (sentinel
`S`) over the script `s`. -/
def runVariant {α ε : Type} [DecidableEq ε] (S : ε) (s : List (StepOut α ε)) : List α :=
  iterateNext (fuseIterVariantNext S) s.length s

/-- Values emitted by repeated `FuseIterClosure::next` calls (predicate
`cond`) over the script `s`. -/
def runClosure {α ε : Type} (cond : ε → Bool) (s : List (StepOut α ε)) : List α :=
  iterateNext (fuseIterClosureNext cond) s.length s

/-- Like `iterateNext`, but each emitted value is paired with the running
total of `step()` invocations made so far.  The scripted `some_next`
consumes exactly one scripted entry per invocation, so the number of
`step()` calls made by one `next` call is the number of entries it
consumed, `s.length - s'.length`. -/
def iterateNextTrace {α ε : Type}
    (next : List (StepOut α ε) → Option (Option α × List (StepOut α ε))) :
    Nat → Nat → List (StepOut α ε) → List (α × Nat)
  | 0, _, _ => []
  | fuel + 1, steps, s =>
    match next s with
    | some (some v, s') =>
        (v, steps + (s.length - s'.length)) ::
          iterateNextTrace next fuel (steps + (s.length - s'.length)) s'
    | _ => []

/-- Emitted values of `FuseIterAlways`, each with the total number of
`step()` invocations performed up to and including its emission. -/
def runAlwaysTrace {α ε : Type} (s : List (StepOut α ε)) : List (α × Nat) :=
  iterateNextTrace fuseIterAlwaysNext s.length 0 s

/-- Emitted values of `FuseIterClosure`, each with the total number of
`step()` invocations performed up to and including its emission. -/
def runClosureTrace {α ε : Type} (cond : ε → Bool) (s : List (StepOut α ε)) :
    List (α × Nat) :=
  iterateNextTrace (fuseIterClosureNext cond) s.length 0 s

/-- The `FuseIterAlways` struct (iter.rs lines 71-77): single field
`inner`; no terminated flag. -/
structure FuseIterAlways (α ε : Type) where
  inner : List (StepOut α ε)

/-- The `FuseIterVariant` struct (iter.rs lines 92-99): fields `inner`
and `variant`; no terminated flag. -/
structure FuseIterVariant (α ε : Type) where
  inner : List (StepOut α ε)
  variant : ε

/-- The `FuseIterClosure` struct (iter.rs lines 120-126): fields `inner`
and `cond`; no terminated flag. -/
structure FuseIterClosure (α ε : Type) where
  inner : List (StepOut α ε)
  cond : ε → Bool

/-- `FuseIterAlways::next` at the struct level: the body reads and writes
only `self.inner` (through `some_next`); there is no other field. -/
def FuseIterAlways.next {α ε : Type} (it : FuseIterAlways α ε) :
    Option (Option α × FuseIterAlways α ε) :=
  (fuseIterAlwaysNext it.inner).map fun r => (r.1, ⟨r.2⟩)

/-- `FuseIterVariant::next` at the struct level: the body mutates only
`self.inner` (through `some_next`); it contains no assignment to
`self.variant`. -/
def FuseIterVariant.next {α ε : Type} [DecidableEq ε] (it : FuseIterVariant α ε) :
    Option (Option α × FuseIterVariant α ε) :=
  (fuseIterVariantNext it.variant it.inner).map fun r => (r.1, ⟨r.2, it.variant⟩)

/-- `FuseIterClosure::next` at the struct level: the body mutates only
`self.inner` (through `some_next`); it contains no assignment to
`self.cond`. -/
def FuseIterClosure.next {α ε : Type} (it : FuseIterClosure α ε) :
    Option (Option α × FuseIterClosure α ε) :=
  (fuseIterClosureNext it.cond it.inner).map fun r => (r.1, ⟨r.2, it.cond⟩)

/-- Spec side: is this scripted outcome a failure (`Failed`)? -/
def isFailed {α ε : Type} : StepOut α ε → Bool
  | some (.error _) => true
  | _ => false

/-- Spec side: is this scripted outcome the sentinel failure
(`Failed(S)`)? -/
def isSentinelFailed {α ε : Type} [DecidableEq ε] (S : ε) : StepOut α ε → Bool
  | some (.error e) => decide (e = S)
  | _ => false

/-- Spec side: is this scripted outcome a failure the continuation
predicate rejects (`Failed(e)` with `p e = false`)? -/
def isBreakingFailed {α ε : Type} (p : ε → Bool) : StepOut α ε → Bool
  | some (.error e) => !p e
  | _ => false

/-- Spec side: the produced payload of a scripted outcome, if any. -/
def payload {α ε : Type} : StepOut α ε → Option α
  | some (.ok v) => some v
  | _ => none

/-- Spec P1's expected output: the `Produced` payloads occurring before
the first `Failed`, in order (`Empty` entries contribute nothing). -/
def producedBeforeFirstFailed {α ε : Type} (s : List (StepOut α ε)) : List α :=
  (s.takeWhile fun o => !isFailed o).filterMap payload

/-- Spec P2's expected output: all `Produced` payloads occurring before
the first `Failed(S)`, in order. -/
def producedBeforeFirstSentinel {α ε : Type} [DecidableEq ε] (S : ε)
    (s : List (StepOut α ε)) : List α :=
  (s.takeWhile fun o => !isSentinelFailed S o).filterMap payload

/-- Spec P3's expected output: all `Produced` payloads occurring before
the first `Failed(e)` with `p e = false`, in order. -/
def producedBeforeFirstBreaking {α ε : Type} (p : ε → Bool)
    (s : List (StepOut α ε)) : List α :=
  (s.takeWhile fun o => !isBreakingFailed p o).filterMap payload

/-- Spec P4's expected trace: each `Produced` payload occurring before
the terminal failure, paired with the one-based position of its entry in
the script (`keepGoing e = false` marks a terminal failure; the position
counts every scripted entry, including skipped `Empty` and absorbed
failures).  `base` is the number of entries before the current suffix. -/
def producedEntryPositions {α ε : Type} (keepGoing : ε → Bool) :
    Nat → List (StepOut α ε) → List (α × Nat)
  | _, [] => []
  | base, some (.ok v) :: rest => (v, base + 1) :: producedEntryPositions keepGoing (base + 1) rest
  | base, some (.error e) :: rest =>
      if keepGoing e then producedEntryPositions keepGoing (base + 1) rest else []
  | base, none :: rest => producedEntryPositions keepGoing (base + 1) rest

/-- Shapes of the Rust types occurring in the `some_next` contract:
the item type, the error type, `Option<_>` and `Result<_, _>`. -/
inductive RustTy : Type where
  | item : RustTy
  | error : RustTy
  | option : RustTy → RustTy
  | result : RustTy → RustTy → RustTy
deriving DecidableEq

/-- Shapes of the Rust patterns occurring in the bodies' match arms:
wildcard, `Some(_)`, `None`, `Ok(_)`, `Err(_)`. -/
inductive RustPat : Type where
  | wild : RustPat
  | someP : RustPat → RustPat
  | noneP : RustPat
  | okP : RustPat → RustPat
  | errP : RustPat → RustPat
deriving DecidableEq

/-- Whether a pattern type-checks against a scrutinee of the given
shape: `Some`/`None` patterns demand an `Option` scrutinee and
`Ok`/`Err` patterns demand a `Result` scrutinee, recursively. -/
def patCompatible : RustPat → RustTy → Bool
  | .wild, _ => true
  | .someP q, .option t => patCompatible q t
  | .someP _, _ => false
  | .noneP, .option _ => true
  | .noneP, _ => false
  | .okP q, .result t _ => patCompatible q t
  | .okP _, _ => false
  | .errP q, .result _ u => patCompatible q u
  | .errP _, _ => false

/-- The return type declared in the trait signature of `some_next`
(iter.rs line 19): `Result<Option<Self::SomeItem>, Self::Error>` —
failure-or-optional-value. -/
def someNextDeclaredTy : RustTy := .result (.option .item) .error

/-- The scrutinee shape demanded by the match arms of `seek_next`
(iter.rs lines 26-30): `Option<Result<SomeItem, Error>>` —
optional-of-failure-or-value. -/
def seekNextMatchedTy : RustTy := .option (.result .item .error)

/-- The patterns of `seek_next`'s match arms (iter.rs lines 27-29):
`Some(Ok(t))`, `Some(Err(_))`, `None`. -/
def seekNextMatchArms : List RustPat :=
  [.someP (.okP .wild), .someP (.errP .wild), .noneP]

/-- Associated items the `FallibleIterator` trait requires implementors
to supply, with no default (iter.rs lines 15-19): the two associated
types and the one required method. -/
def fallibleIteratorRequiredItems : List String :=
  ["SomeItem", "Error", "some_next"]

/-- Methods the `FallibleIterator` trait supplies default bodies for
(iter.rs lines 24-67). -/
def fallibleIteratorDefaultedItems : List String :=
  ["seek_next", "fuse_err", "fuse_err_on", "fuse_err_when"]

/-- Items defined in the body of the blanket
`impl<I, T, E> FallibleIterator for I where I: Iterator<Item = Result<T, E>>`
(iter.rs line 149): the body is `{}` — empty. -/
def blanketImplItems : List String := []

/-! ## Relations between the three adapters' next functions -/

theorem alwaysNext_eq_closureNext {α ε : Type} :
    ∀ s : List (StepOut α ε), fuseIterAlwaysNext s = fuseIterClosureNext (fun _ => false) s := by
  intro s
  induction s with
  | nil => rfl
  | cons o rest ih =>
    match o with
    | some (.ok v) => rfl
    | some (.error e) => rfl
    | none =>
      simp only [fuseIterAlwaysNext, seek_next, fuseIterClosureNext] at ih ⊢
      exact ih

theorem variantNext_eq_closureNext {α ε : Type} [DecidableEq ε] (S : ε) :
    ∀ s : List (StepOut α ε),
      fuseIterVariantNext S s = fuseIterClosureNext (fun e => decide (e ≠ S)) s := by
  intro s
  induction s with
  | nil => rfl
  | cons o rest ih =>
    match o with
    | some (.ok v) => rfl
    | some (.error e) =>
      simp only [fuseIterVariantNext, fuseIterClosureNext]
      by_cases he : e = S
      · have hd : decide (e ≠ S) = false := by simp [he]
        rw [if_pos he]
        simp only [hd]
        simp
      · have hd : decide (e ≠ S) = true := by simp [he]
        rw [if_neg he]
        simp only [hd]
        simpa using ih
    | none =>
      simp only [fuseIterVariantNext, fuseIterClosureNext]
      exact ih

theorem isFailed_eq_isBreakingFailed {α ε : Type} (o : StepOut α ε) :
    isFailed o = isBreakingFailed (fun _ => false) o := by
  match o with
  | some (.ok v) => rfl
  | some (.error e) => rfl
  | none => rfl

theorem isSentinelFailed_eq_isBreakingFailed {α ε : Type} [DecidableEq ε] (S : ε)
    (o : StepOut α ε) :
    isSentinelFailed S o = isBreakingFailed (fun e => decide (e ≠ S)) o := by
  match o with
  | some (.ok v) => rfl
  | some (.error e) => by_cases he : e = S <;> simp [isSentinelFailed, isBreakingFailed, he]
  | none => rfl

/-! ## The run of each adapter computes the spec's expected output -/

theorem iterateClosure_eq_spec {α ε : Type} (p : ε → Bool) :
    ∀ (s : List (StepOut α ε)) (f : Nat), s.length ≤ f →
      iterateNext (fuseIterClosureNext p) f s = producedBeforeFirstBreaking p s := by
  intro s
  induction s with
  | nil =>
    intro f hf
    cases f with
    | zero => simp [iterateNext, producedBeforeFirstBreaking]
    | succ f' => simp [iterateNext, fuseIterClosureNext, producedBeforeFirstBreaking]
  | cons o rest ih =>
    intro f hf
    cases f with
    | zero => simp at hf
    | succ f' =>
      match o with
      | some (.ok v) =>
        have hr : rest.length ≤ f' := by
          simpa using hf
        simp only [iterateNext, fuseIterClosureNext, ih f' hr,
          producedBeforeFirstBreaking, List.takeWhile_cons, isBreakingFailed,
          Bool.not_false, if_true, List.filterMap_cons, payload]
      | some (.error e) =>
        by_cases hc : p e
        · have hskip : fuseIterClosureNext p (some (.error e) :: rest) =
              fuseIterClosureNext p rest := by
            simp [fuseIterClosureNext, hc]
          have hr : rest.length ≤ f' + 1 := by
            simp only [List.length_cons] at hf
            omega
          calc iterateNext (fuseIterClosureNext p) (f' + 1) (some (.error e) :: rest)
              = iterateNext (fuseIterClosureNext p) (f' + 1) rest := by
                simp only [iterateNext, hskip]
            _ = producedBeforeFirstBreaking p rest := ih (f' + 1) hr
            _ = producedBeforeFirstBreaking p (some (.error e) :: rest) := by
                simp [producedBeforeFirstBreaking, isBreakingFailed, hc,
                  List.takeWhile_cons, payload]
        · simp [iterateNext, fuseIterClosureNext, hc, producedBeforeFirstBreaking,
            isBreakingFailed, List.takeWhile_cons]
      | none =>
        have hskip : fuseIterClosureNext p ((none : StepOut α ε) :: rest) =
            fuseIterClosureNext p rest := by
          simp [fuseIterClosureNext]
        have hr : rest.length ≤ f' + 1 := by
          simp only [List.length_cons] at hf
          omega
        calc iterateNext (fuseIterClosureNext p) (f' + 1) ((none : StepOut α ε) :: rest)
            = iterateNext (fuseIterClosureNext p) (f' + 1) rest := by
              simp only [iterateNext, hskip]
          _ = producedBeforeFirstBreaking p rest := ih (f' + 1) hr
          _ = producedBeforeFirstBreaking p ((none : StepOut α ε) :: rest) := by
              simp [producedBeforeFirstBreaking, isBreakingFailed,
                List.takeWhile_cons, payload]

/-- Claim C3: Fuse-While adapter: for any stepper driven by a finite
scripted sequence and any continuation predicate `p` over the error
type, the values emitted by repeated calls to `FuseIterClosure::next`
equal all `Produced` payloads occurring before the first `Failed(e)`
with `p e = false`; any `Failed(e)` with `p e = true` is skipped,
`Empty` is skipped, and the sequence ends with no emission at the first
`Failed(e)` with `p e = false`. -/
theorem fuseClosure_emits_produced_while_predicate_holds {α ε : Type}
    (p : ε → Bool) (s : List (StepOut α ε)) :
    runClosure p s = producedBeforeFirstBreaking p s :=
  iterateClosure_eq_spec p s s.length le_rfl

/-- Claim C1: Fuse-Always adapter: for any stepper driven by a finite
scripted sequence of outcomes, the values emitted by repeated calls to
`FuseIterAlways::next` equal the `Produced` payloads occurring before
the first `Failed`, in order; the derived sequence ends at (and
excludes) that first `Failed`, and every `Empty` entry is skipped
without affecting the output. -/
theorem fuseAlways_emits_produced_before_first_failed {α ε : Type}
    (s : List (StepOut α ε)) :
    runAlways s = producedBeforeFirstFailed s := by
  have h1 : runAlways s = runClosure (fun _ => false) s := by
    unfold runAlways runClosure
    rw [funext alwaysNext_eq_closureNext]
  have h2 : producedBeforeFirstFailed s = producedBeforeFirstBreaking (fun _ => false) s := by
    unfold producedBeforeFirstFailed producedBeforeFirstBreaking
    rw [funext fun o => congrArg Bool.not (@isFailed_eq_isBreakingFailed α ε o)]
  rw [h1, h2]
  exact iterateClosure_eq_spec (fun _ => false) s s.length le_rfl

/-- Claim C2: Fuse-On-Sentinel adapter: for any stepper driven by a
finite scripted sequence and any sentinel `S` fixed at construction, the
values emitted by repeated calls to `FuseIterVariant::next` equal all
`Produced` payloads occurring before the first `Failed(S)`; any
`Failed(e)` with `e ≠ S` is skipped and does not end the sequence,
`Empty` is skipped, and the sequence ends with no emission at the first
`Failed(S)`. -/
theorem fuseVariant_emits_produced_before_first_sentinel {α ε : Type}
    [DecidableEq ε] (S : ε) (s : List (StepOut α ε)) :
    runVariant S s = producedBeforeFirstSentinel S s := by
  have h1 : runVariant S s = runClosure (fun e => decide (e ≠ S)) s := by
    unfold runVariant runClosure
    rw [funext (variantNext_eq_closureNext S)]
  have h2 : producedBeforeFirstSentinel S s =
      producedBeforeFirstBreaking (fun e => decide (e ≠ S)) s := by
    unfold producedBeforeFirstSentinel producedBeforeFirstBreaking
    rw [funext fun o =>
      congrArg Bool.not (@isSentinelFailed_eq_isBreakingFailed α ε _ S o)]
  rw [h1, h2]
  exact iterateClosure_eq_spec (fun e => decide (e ≠ S)) s s.length le_rfl

/-- Claim C6: Fuse-On-Sentinel is the special case of Fuse-While with
the predicate `fun e => e ≠ S`: for every stepper driven by the same
finite scripted sequence and every sentinel `S`, the value sequence
emitted by `FuseIterVariant` with sentinel `S` equals the value sequence
emitted by `FuseIterClosure` with predicate `fun e => decide (e ≠ S)`. -/
theorem fuseVariant_is_fuseClosure_with_ne_sentinel {α ε : Type}
    [DecidableEq ε] (S : ε) (s : List (StepOut α ε)) :
    runVariant S s = runClosure (fun e => decide (e ≠ S)) s := by
  unfold runVariant runClosure
  rw [funext (variantNext_eq_closureNext S)]

/-- Claim C4: the derived seek operation: `seek_next` repeatedly calls
`step()` while the outcome is `Empty` (and never returns within a script
of only `Empty` entries); it returns `Some(item)` on the first
`Produced` outcome, leaving exactly the entries after it; and it returns
`None` and stops polling on any `Failed` outcome — the error payload is
discarded and exactly the entries after the `Failed` are left
unconsumed. -/
theorem seek_next_skips_empty_and_stops_on_failure {α ε : Type}
    (n : Nat) (v : α) (e : ε) (rest : List (StepOut α ε)) :
    seek_next (List.replicate n (none : StepOut α ε) ++ some (.ok v) :: rest)
        = some (some v, rest)
    ∧ seek_next (List.replicate n (none : StepOut α ε) ++ some (.error e) :: rest)
        = some (none, rest)
    ∧ seek_next (List.replicate n (none : StepOut α ε)) = none := by
  induction n with
  | zero => exact ⟨rfl, rfl, rfl⟩
  | succ m ih =>
    refine ⟨?_, ?_, ?_⟩
    · simpa [List.replicate_succ, seek_next] using ih.1
    · simpa [List.replicate_succ, seek_next] using ih.2.1
    · simpa [List.replicate_succ, seek_next] using ih.2.2

/-! ## Every returning next call consumes at least one scripted entry -/

theorem closureNext_shrinks {α ε : Type} (p : ε → Bool) :
    ∀ {s : List (StepOut α ε)} {x s'},
      fuseIterClosureNext p s = some (x, s') → s'.length < s.length := by
  intro s
  induction s with
  | nil => intro x s' h; simp [fuseIterClosureNext] at h
  | cons o rest ih =>
    intro x s' h
    match o with
    | some (.ok t) =>
      simp only [fuseIterClosureNext, Option.some.injEq, Prod.mk.injEq] at h
      simp [← h.2, List.length_cons]
    | some (.error e) =>
      by_cases hc : p e
      · simp only [fuseIterClosureNext, hc, if_true] at h
        exact Nat.lt_trans (ih h) (Nat.lt_succ_self _)
      · simp only [fuseIterClosureNext, hc, Bool.false_eq_true, if_false,
          Option.some.injEq, Prod.mk.injEq] at h
        simp [← h.2, List.length_cons]
    | none =>
      simp only [fuseIterClosureNext] at h
      exact Nat.lt_trans (ih h) (Nat.lt_succ_self _)

/-- Fuel `s.length` is enough for `iterateNext` to drive the adapter to
its end of sequence: any two sufficient fuels give the same emissions,
so `runAlways`/`runVariant`/`runClosure` model unbounded repeated calls
to `next`. -/
theorem iterateNext_fuel_stable {α ε : Type}
    {next : List (StepOut α ε) → Option (Option α × List (StepOut α ε))}
    (hnext : ∀ {s x s'}, next s = some (x, s') → s'.length < s.length) :
    ∀ (f g : Nat) (s : List (StepOut α ε)), s.length ≤ f → s.length ≤ g →
      iterateNext next f s = iterateNext next g s := by
  intro f
  induction f with
  | zero =>
    intro g s hf hg
    have hs : s = [] := List.length_eq_zero.mp (Nat.le_zero.mp hf)
    subst hs
    cases g with
    | zero => rfl
    | succ g' =>
      simp only [iterateNext]
      cases h : next [] with
      | none => rfl
      | some r =>
        exact absurd (@hnext [] r.1 r.2 (by rw [h])) (by simp)
  | succ f' ih =>
    intro g s hf hg
    cases g with
    | zero =>
      have hs : s = [] := List.length_eq_zero.mp (Nat.le_zero.mp hg)
      subst hs
      simp only [iterateNext]
      cases h : next [] with
      | none => rfl
      | some r =>
        exact absurd (@hnext [] r.1 r.2 (by rw [h])) (by simp)
    | succ g' =>
      simp only [iterateNext]
      cases h : next s with
      | none => rfl
      | some r =>
        match r with
        | (some v, s') =>
          have hlt : s'.length < s.length := hnext h
          have h1 : s'.length ≤ f' := by omega
          have h2 : s'.length ≤ g' := by omega
          simp [ih g' s' h1 h2]
        | (none, s') => rfl

/-! ## Claim C7: Empty never terminates; only Failed can -/

theorem seek_next_end_only_on_failed {α ε : Type} :
    ∀ (s s' : List (StepOut α ε)), seek_next s = some (none, s') →
      ∃ pre e, s = pre ++ some (.error e) :: s' := by
  intro s
  induction s with
  | nil => intro s' h; simp [seek_next] at h
  | cons o rest ih =>
    intro s' h
    match o with
    | some (.ok t) => simp [seek_next] at h
    | some (.error e) =>
      simp only [seek_next, Option.some.injEq, Prod.mk.injEq] at h
      exact ⟨[], e, by simp [h.2]⟩
    | none =>
      obtain ⟨pre, e, hpre⟩ := ih s' h
      exact ⟨none :: pre, e, by rw [List.cons_append, hpre]⟩

theorem variantNext_end_only_on_sentinel {α ε : Type} [DecidableEq ε] (S : ε) :
    ∀ (s s' : List (StepOut α ε)), fuseIterVariantNext S s = some (none, s') →
      ∃ pre, s = pre ++ some (.error S) :: s' := by
  intro s
  induction s with
  | nil => intro s' h; simp [fuseIterVariantNext] at h
  | cons o rest ih =>
    intro s' h
    match o with
    | some (.ok t) => simp [fuseIterVariantNext] at h
    | some (.error e) =>
      by_cases he : e = S
      · simp only [fuseIterVariantNext, if_pos he, Option.some.injEq, Prod.mk.injEq] at h
        exact ⟨[], by simp [h.2, he]⟩
      · simp only [fuseIterVariantNext, if_neg he] at h
        obtain ⟨pre, hpre⟩ := ih s' h
        exact ⟨some (.error e) :: pre, by rw [List.cons_append, hpre]⟩
    | none =>
      simp only [fuseIterVariantNext] at h
      obtain ⟨pre, hpre⟩ := ih s' h
      exact ⟨none :: pre, by rw [List.cons_append, hpre]⟩

theorem closureNext_end_only_on_rejected_failed {α ε : Type} (p : ε → Bool) :
    ∀ (s s' : List (StepOut α ε)), fuseIterClosureNext p s = some (none, s') →
      ∃ pre e, p e = false ∧ s = pre ++ some (.error e) :: s' := by
  intro s
  induction s with
  | nil => intro s' h; simp [fuseIterClosureNext] at h
  | cons o rest ih =>
    intro s' h
    match o with
    | some (.ok t) => simp [fuseIterClosureNext] at h
    | some (.error e) =>
      by_cases hc : p e
      · simp only [fuseIterClosureNext, hc, if_true] at h
        obtain ⟨pre, u, hu, hpre⟩ := ih s' h
        exact ⟨some (.error e) :: pre, u, hu, by rw [List.cons_append, hpre]⟩
      · simp only [fuseIterClosureNext, hc, Bool.false_eq_true, if_false,
          Option.some.injEq, Prod.mk.injEq] at h
        exact ⟨[], e, by simp [hc], by simp [h.2]⟩
    | none =>
      simp only [fuseIterClosureNext] at h
      obtain ⟨pre, u, hu, hpre⟩ := ih s' h
      exact ⟨none :: pre, u, hu, by rw [List.cons_append, hpre]⟩

/-- Claim C7: an `Empty` outcome never terminates any derived sequence:
for `seek_next` and for each adapter's `next`, a leading `Empty` is
skipped without any effect on the result, and whenever a call returns
the end-of-sequence signal, the entry that caused it is a `Failed` entry
(for the sentinel adapter necessarily `Failed(S)`, for the predicate
adapter necessarily a `Failed(e)` with `p e = false`), with the script
consumed exactly up to and including that entry. -/
theorem empty_never_terminates_only_failed_does {α ε : Type} [DecidableEq ε]
    (S : ε) (p : ε → Bool) (s s' : List (StepOut α ε)) :
    (seek_next ((none : StepOut α ε) :: s) = seek_next s
      ∧ fuseIterVariantNext S ((none : StepOut α ε) :: s) = fuseIterVariantNext S s
      ∧ fuseIterClosureNext p ((none : StepOut α ε) :: s) = fuseIterClosureNext p s)
    ∧ (seek_next s = some (none, s') →
        ∃ pre e, s = pre ++ some (.error e) :: s')
    ∧ (fuseIterVariantNext S s = some (none, s') →
        ∃ pre, s = pre ++ some (.error S) :: s')
    ∧ (fuseIterClosureNext p s = some (none, s') →
        ∃ pre e, p e = false ∧ s = pre ++ some (.error e) :: s') :=
  ⟨⟨rfl, rfl, rfl⟩,
    seek_next_end_only_on_failed s s',
    variantNext_end_only_on_sentinel S s s',
    closureNext_end_only_on_rejected_failed p s s'⟩

theorem empty_never_terminates_only_failed_does_witness :
    (∃ pre e, ([none, some (.error 3)] : List (StepOut Nat Nat))
        = pre ++ some (.error e) :: [])
    ∧ (∃ pre, ([some (.error 4), some (.error 7)] : List (StepOut Nat Nat))
        = pre ++ some (.error 7) :: [])
    ∧ (∃ pre e, (fun x : Nat => decide (x < 5)) e = false
        ∧ ([some (.error 9)] : List (StepOut Nat Nat)) = pre ++ some (.error e) :: []) :=
  ⟨(empty_never_terminates_only_failed_does 7 (fun x : Nat => decide (x < 5))
      [none, some (.error 3)] []).2.1 rfl,
   (empty_never_terminates_only_failed_does 7 (fun x : Nat => decide (x < 5))
      [some (.error 4), some (.error 7)] []).2.2.1 rfl,
   (empty_never_terminates_only_failed_does 7 (fun x : Nat => decide (x < 5))
      [some (.error 9)] []).2.2.2 rfl⟩

/-! ## Claim C8: one step() consumed per scripted entry, no lookahead -/

theorem iterateNextTrace_skip {α ε : Type}
    {next : List (StepOut α ε) → Option (Option α × List (StepOut α ε))}
    (hnext : ∀ {s x s'}, next s = some (x, s') → s'.length < s.length)
    {o : StepOut α ε} {rest : List (StepOut α ε)}
    (h : next (o :: rest) = next rest) (f c : Nat) :
    iterateNextTrace next (f + 1) c (o :: rest)
      = iterateNextTrace next (f + 1) (c + 1) rest := by
  simp only [iterateNextTrace, h]
  cases hr : next rest with
  | none => rfl
  | some r =>
    match r with
    | (some v, s') =>
      dsimp only
      have hlt : s'.length < rest.length := hnext hr
      have hlen : (o :: rest).length - s'.length = rest.length - s'.length + 1 := by
        simp only [List.length_cons]
        omega
      have hcc : c + (rest.length - s'.length + 1) = c + 1 + (rest.length - s'.length) := by
        omega
      rw [hlen, hcc]
    | (none, s') => rfl

theorem iterateClosureTrace_eq_spec {α ε : Type} (p : ε → Bool) :
    ∀ (s : List (StepOut α ε)) (c f : Nat), s.length ≤ f →
      iterateNextTrace (fuseIterClosureNext p) f c s = producedEntryPositions p c s := by
  intro s
  induction s with
  | nil =>
    intro c f hf
    cases f with
    | zero => simp [iterateNextTrace, producedEntryPositions]
    | succ f' => simp [iterateNextTrace, fuseIterClosureNext, producedEntryPositions]
  | cons o rest ih =>
    intro c f hf
    cases f with
    | zero => simp at hf
    | succ f' =>
      match o with
      | some (.ok v) =>
        have hr : rest.length ≤ f' := by
          simpa using hf
        have hlen : (some (Except.ok v) :: rest).length - rest.length = 1 := by
          simp
        simp only [iterateNextTrace, fuseIterClosureNext, hlen, producedEntryPositions]
        rw [ih (c + 1) f' hr]
      | some (.error e) =>
        by_cases hc : p e
        · have hskip : fuseIterClosureNext p (some (.error e) :: rest) =
              fuseIterClosureNext p rest := by
            simp [fuseIterClosureNext, hc]
          have hr : rest.length ≤ f' + 1 := by
            simp only [List.length_cons] at hf
            omega
          rw [iterateNextTrace_skip (closureNext_shrinks p) hskip f' c]
          rw [ih (c + 1) (f' + 1) hr]
          simp [producedEntryPositions, hc]
        · simp [iterateNextTrace, fuseIterClosureNext, hc, producedEntryPositions]
      | none =>
        have hskip : fuseIterClosureNext p ((none : StepOut α ε) :: rest) =
            fuseIterClosureNext p rest := by
          simp [fuseIterClosureNext]
        have hr : rest.length ≤ f' + 1 := by
          simp only [List.length_cons] at hf
          omega
        rw [iterateNextTrace_skip (closureNext_shrinks p) hskip f' c]
        rw [ih (c + 1) (f' + 1) hr]
        simp [producedEntryPositions]

/-- Claim C8: no buffering or lookahead: over a scripted stepper, the
total number of `step()` invocations performed to produce the nth
emitted value is exactly the count of scripted entries up to and
including the nth `Produced` entry — counting the skipped `Empty` and
absorbed non-terminal `Failed` entries — for the Fuse-While adapter with
any predicate `p` and for the Fuse-Always adapter (whose `next` is
`seek_next`): each emitted value is paired with its entry's one-based
position in the script, so exactly one outcome is consumed per poll and
no entry past the one being evaluated is ever read. -/
theorem adapters_consume_one_step_per_entry {α ε : Type}
    (p : ε → Bool) (s : List (StepOut α ε)) :
    runClosureTrace p s = producedEntryPositions p 0 s
    ∧ runAlwaysTrace s = producedEntryPositions (fun _ => false) 0 s := by
  constructor
  · exact iterateClosureTrace_eq_spec p s 0 s.length le_rfl
  · have h1 : runAlwaysTrace s = runClosureTrace (fun _ => false) s := by
      unfold runAlwaysTrace runClosureTrace
      rw [funext alwaysNext_eq_closureNext]
    rw [h1]
    exact iterateClosureTrace_eq_spec (fun _ => false) s 0 s.length le_rfl

/-! ## Claim C9: termination is not latched -/

/-- Claim C9: none of the three adapters latches termination: a `next`
call that returns (the end-of-sequence signal included) changes nothing
in the adapter except the wrapped stepper — the sentinel and the
predicate are never modified, and the structs hold no terminated flag —
so after an end-of-sequence return, a subsequent `next` call polls the
wrapped stepper afresh and emits a value again whenever the stepper then
yields a `Produced` outcome (acceptable under every adapter's policy). -/
theorem adapters_do_not_latch_termination {α ε : Type} [DecidableEq ε] :
    (∀ (it it' : FuseIterVariant α ε) (x : Option α),
        it.next = some (x, it') → it'.variant = it.variant)
    ∧ (∀ (it it' : FuseIterClosure α ε) (x : Option α),
        it.next = some (x, it') → it'.cond = it.cond)
    ∧ (∀ (it it' : FuseIterVariant α ε), it.next = some (none, it') →
        ∀ (v : α) (t : List (StepOut α ε)), it'.inner = some (.ok v) :: t →
          it'.next = some (some v, ⟨t, it.variant⟩))
    ∧ (∀ (it it' : FuseIterClosure α ε), it.next = some (none, it') →
        ∀ (v : α) (t : List (StepOut α ε)), it'.inner = some (.ok v) :: t →
          it'.next = some (some v, ⟨t, it.cond⟩))
    ∧ (∀ (it it' : FuseIterAlways α ε), it.next = some (none, it') →
        ∀ (v : α) (t : List (StepOut α ε)), it'.inner = some (.ok v) :: t →
          it'.next = some (some v, ⟨t⟩)) := by
  have hv : ∀ (it it' : FuseIterVariant α ε) (x : Option α),
      it.next = some (x, it') → it'.variant = it.variant := by
    intro it it' x h
    unfold FuseIterVariant.next at h
    cases hvn : fuseIterVariantNext it.variant it.inner with
    | none => rw [hvn] at h; simp at h
    | some r =>
      rw [hvn] at h
      simp only [Option.map_some', Option.some.injEq, Prod.mk.injEq] at h
      rw [← h.2]
  have hc : ∀ (it it' : FuseIterClosure α ε) (x : Option α),
      it.next = some (x, it') → it'.cond = it.cond := by
    intro it it' x h
    unfold FuseIterClosure.next at h
    cases hcn : fuseIterClosureNext it.cond it.inner with
    | none => rw [hcn] at h; simp at h
    | some r =>
      rw [hcn] at h
      simp only [Option.map_some', Option.some.injEq, Prod.mk.injEq] at h
      rw [← h.2]
  refine ⟨hv, hc, ?_, ?_, ?_⟩
  · intro it it' h v t hinner
    have hvar : it'.variant = it.variant := hv it it' none h
    unfold FuseIterVariant.next
    rw [hinner, hvar]
    rfl
  · intro it it' h v t hinner
    have hcond : it'.cond = it.cond := hc it it' none h
    unfold FuseIterClosure.next
    rw [hinner, hcond]
    rfl
  · intro it it' _h v t hinner
    unfold FuseIterAlways.next
    rw [hinner]
    rfl

/-! ## Claims C5 and C10: static shape of the trait and its blanket impl -/

/-- Claim C5: the per-step operation's return type as declared in the
trait signature — failure-or-optional-value,
`Result<Option<SomeItem>, Error>` — and the shape consumed by the
default skip-transient reduction's match logic —
optional-of-failure-or-value, `Option<Result<SomeItem, Error>>` — are
not the same shape; the match arms of `seek_next` all type-check against
the latter and none of them type-checks against the former. -/
theorem some_next_declared_and_matched_shapes_disagree :
    someNextDeclaredTy ≠ seekNextMatchedTy
    ∧ (seekNextMatchArms.all fun q => patCompatible q seekNextMatchedTy) = true
    ∧ (seekNextMatchArms.all fun q => !patCompatible q someNextDeclaredTy) = true := by
  decide

/-- Claim C10: the blanket
`impl<I, T, E> FallibleIterator for I where I: Iterator<Item = Result<T, E>>`
has an empty body: it supplies none of the items the trait requires —
`SomeItem`, `Error`, `some_next` — and none of those required items has
a trait-supplied default either, so the impl defines no per-step
operation for ordinary result-yielding iterators. -/
theorem blanket_impl_provides_no_required_items :
    blanketImplItems = []
    ∧ (fallibleIteratorRequiredItems.all
        fun x => !(blanketImplItems.contains x
          || fallibleIteratorDefaultedItems.contains x)) = true := by
  decide

/-! ## Concrete scenarios from the spec (section 8) -/

theorem scenario_a_fuse_always :
    runAlways ([some (.ok 1), none, some (.ok 2), some (.error 10), some (.ok 3)] :
      List (StepOut Nat Nat)) = [1, 2] := by
  rfl

theorem scenario_b_fuse_on_sentinel :
    runVariant 10 ([some (.ok 1), none, some (.ok 2), some (.error 10), some (.ok 3)] :
      List (StepOut Nat Nat)) = [1, 2] := by
  rfl

theorem scenario_c_fuse_on_other_sentinel :
    runVariant 11 ([some (.ok 1), none, some (.ok 2), some (.error 10), some (.ok 3)] :
      List (StepOut Nat Nat)) = [1, 2, 3] := by
  rfl

theorem scenario_d_fuse_while :
    runClosure (fun _ => true)
      ([some (.error 10), some (.error 10), some (.ok 1)] : List (StepOut Nat Nat))
      = [1] := by
  rfl

/-! ## Witnesses: the claim theorems evaluated at concrete inputs -/

theorem fuseAlways_emits_produced_before_first_failed_witness :
    runAlways ([some (.ok 1), none, some (.ok 2), some (.error 10), some (.ok 3)] :
      List (StepOut Nat Nat))
      = producedBeforeFirstFailed
          ([some (.ok 1), none, some (.ok 2), some (.error 10), some (.ok 3)] :
            List (StepOut Nat Nat)) :=
  fuseAlways_emits_produced_before_first_failed _

theorem fuseVariant_emits_produced_before_first_sentinel_witness :
    runVariant 10 ([some (.ok 1), none, some (.ok 2), some (.error 10), some (.ok 3)] :
      List (StepOut Nat Nat))
      = producedBeforeFirstSentinel 10
          ([some (.ok 1), none, some (.ok 2), some (.error 10), some (.ok 3)] :
            List (StepOut Nat Nat)) :=
  fuseVariant_emits_produced_before_first_sentinel 10 _

theorem fuseClosure_emits_produced_while_predicate_holds_witness :
    runClosure (fun e => decide (e < 15))
      ([some (.ok 1), some (.error 10), some (.ok 2), some (.error 20), some (.ok 3)] :
        List (StepOut Nat Nat))
      = producedBeforeFirstBreaking (fun e => decide (e < 15))
          ([some (.ok 1), some (.error 10), some (.ok 2), some (.error 20), some (.ok 3)] :
            List (StepOut Nat Nat)) :=
  fuseClosure_emits_produced_while_predicate_holds (fun e => decide (e < 15)) _

theorem seek_next_skips_empty_and_stops_on_failure_witness :
    seek_next (List.replicate 2 (none : StepOut Nat Nat) ++ some (.ok 4) :: [])
        = some (some 4, [])
    ∧ seek_next (List.replicate 2 (none : StepOut Nat Nat) ++ some (.error 9) :: [])
        = some (none, [])
    ∧ seek_next (List.replicate 2 (none : StepOut Nat Nat)) = none :=
  seek_next_skips_empty_and_stops_on_failure 2 4 9 []

theorem fuseVariant_is_fuseClosure_with_ne_sentinel_witness :
    runVariant 10 ([some (.ok 1), none, some (.ok 2), some (.error 10), some (.ok 3)] :
      List (StepOut Nat Nat))
      = runClosure (fun e => decide (e ≠ 10))
          ([some (.ok 1), none, some (.ok 2), some (.error 10), some (.ok 3)] :
            List (StepOut Nat Nat)) :=
  fuseVariant_is_fuseClosure_with_ne_sentinel 10 _

theorem adapters_consume_one_step_per_entry_witness :
    runClosureTrace (fun _ => true)
        ([some (.error 10), some (.error 10), some (.ok 1)] : List (StepOut Nat Nat))
      = producedEntryPositions (fun _ => true) 0
          ([some (.error 10), some (.error 10), some (.ok 1)] : List (StepOut Nat Nat))
    ∧ runAlwaysTrace
        ([some (.error 10), some (.error 10), some (.ok 1)] : List (StepOut Nat Nat))
      = producedEntryPositions (fun _ => false) 0
          ([some (.error 10), some (.error 10), some (.ok 1)] : List (StepOut Nat Nat)) :=
  adapters_consume_one_step_per_entry (fun _ => true) _

theorem adapters_do_not_latch_termination_witness :
    ((⟨[some (.ok 5)], 7⟩ : FuseIterVariant Nat Nat).variant
      = (⟨[some (.error 7), some (.ok 5)], 7⟩ : FuseIterVariant Nat Nat).variant)
    ∧ (FuseIterVariant.next (⟨[some (.ok 5)], 7⟩ : FuseIterVariant Nat Nat)
      = some (some 5, ⟨[], 7⟩)) := by
  have h := @adapters_do_not_latch_termination Nat Nat _
  exact ⟨h.1 ⟨[some (.error 7), some (.ok 5)], 7⟩ ⟨[some (.ok 5)], 7⟩ none rfl,
    h.2.2.1 ⟨[some (.error 7), some (.ok 5)], 7⟩ ⟨[some (.ok 5)], 7⟩ rfl 5 [] rfl⟩

end SomeTrait
